import Mathlib

/-!
Shallow embedding of the atcoder_search repository (Rust) for checking its
natural-language specification.  Each definition is translated from the
source file named in its doc comment.  External crates (unicode
normalization, URL parsing, HTML parsing) appear either as function
parameters or as small explicit models, noted where they occur.
-/

/-! ## Solr query sanitizing, from src/atcoder_search_libs/src/solr/query.rs

The regex SOLR_SPECIAL_CHARACTERS is
`(\+|\-|&&|\|\||!|\(|\)|\{|\}|\[|\]|\^|"|\~|\*|\?|:|/|AND|OR)` and
`sanitize` replaces every leftmost non-overlapping occurrence with `\$0`
after NFKC-normalizing the input.  The single-character alternatives and
the multi-character alternatives (`&&`, `||`, `AND`, `OR`) never compete
for the same position, so the scan below (multi-character tokens first,
then the single-character set) is the regex's leftmost-first semantics. -/

/-- The single-character reserved tokens of SOLR_SPECIAL_CHARACTERS. -/
def solrSingleTokens : List Char :=
  ['+', '-', '!', '(', ')', '\x7b', '\x7d', '[', ']', '^', '"', '~', '*', '?', ':', '/']

/-- Leftmost-first scan of `Regex::replace_all` with replacement `\$0`:
each occurrence of a reserved token is emitted prefixed with a backslash,
everything else is copied unchanged. -/
def escapeLoop : List Char → List Char
  | [] => []
  | '&' :: '&' :: cs => '\\' :: '&' :: '&' :: escapeLoop cs
  | '|' :: '|' :: cs => '\\' :: '|' :: '|' :: escapeLoop cs
  | 'A' :: 'N' :: 'D' :: cs => '\\' :: 'A' :: 'N' :: 'D' :: escapeLoop cs
  | 'O' :: 'R' :: cs => '\\' :: 'O' :: 'R' :: escapeLoop cs
  | c :: cs =>
    if c ∈ solrSingleTokens then '\\' :: c :: escapeLoop cs
    else c :: escapeLoop cs

/-- String-level wrapper of `escapeLoop`. -/
def escapeString (s : String) : String := String.mk (escapeLoop s.data)

/-- `sanitize` from query.rs: NFKC normalization (the external
unicode_normalization crate, passed here as the parameter `nfkc`) followed
by escaping of the reserved tokens. -/
def sanitize (nfkc : String → String) (s : String) : String := escapeString (nfkc s)

/-- Decidable occurrence check: does some reserved token occur in `cs`?
Mirrors the positions `escapeLoop` would escape at. -/
def hasTok : List Char → Bool
  | [] => false
  | '&' :: '&' :: _ => true
  | '|' :: '|' :: _ => true
  | 'A' :: 'N' :: 'D' :: _ => true
  | 'O' :: 'R' :: _ => true
  | c :: cs => c ∈ solrSingleTokens || hasTok cs

/-! ## EDisMaxQueryBuilder, from src/atcoder_search_libs/src/solr/query.rs -/

/-- Query operator `q.op`, rendered by its Display impl. -/
inductive Operator where
  | AND
  | OR
deriving DecidableEq

/-- Display impl of Operator. -/
def Operator.render : Operator → String
  | .AND => "AND"
  | .OR => "OR"

/-- The builder state: the accumulated parameter list and the
`facet_enable` flag. -/
structure EDisMaxQueryBuilder where
  params : List (String × String)
  facet_enable : Bool
deriving DecidableEq

/-- `EDisMaxQueryBuilder::new`: params starts as `[("defType","edismax")]`. -/
def EDisMaxQueryBuilder.new : EDisMaxQueryBuilder :=
  { params := [("defType", "edismax")], facet_enable := false }

/-- `build` returns the accumulated parameters. -/
def EDisMaxQueryBuilder.build (b : EDisMaxQueryBuilder) : List (String × String) :=
  b.params

/-- `sort`: pushes unconditionally. -/
def EDisMaxQueryBuilder.sort (b : EDisMaxQueryBuilder) (s : String) : EDisMaxQueryBuilder :=
  { b with params := b.params ++ [("sort", s)] }

/-- `start`: pushes the rendered number. -/
def EDisMaxQueryBuilder.start (b : EDisMaxQueryBuilder) (n : Nat) : EDisMaxQueryBuilder :=
  { b with params := b.params ++ [("start", toString n)] }

/-- `rows`: pushes the rendered number. -/
def EDisMaxQueryBuilder.rows (b : EDisMaxQueryBuilder) (n : Nat) : EDisMaxQueryBuilder :=
  { b with params := b.params ++ [("rows", toString n)] }

/-- `fq`: pushes only when nonempty. -/
def EDisMaxQueryBuilder.fq (b : EDisMaxQueryBuilder) (s : String) : EDisMaxQueryBuilder :=
  if s = "" then b else { b with params := b.params ++ [("fq", s)] }

/-- `fl`: pushes only when nonempty. -/
def EDisMaxQueryBuilder.fl (b : EDisMaxQueryBuilder) (s : String) : EDisMaxQueryBuilder :=
  if s = "" then b else { b with params := b.params ++ [("fl", s)] }

/-- `debug`: pushes two fixed pairs. -/
def EDisMaxQueryBuilder.debug (b : EDisMaxQueryBuilder) : EDisMaxQueryBuilder :=
  { b with params := b.params ++ [("debug", "all"), ("debug.explain.structured", "true")] }

/-- `wt`: pushes only when nonempty. -/
def EDisMaxQueryBuilder.wt (b : EDisMaxQueryBuilder) (s : String) : EDisMaxQueryBuilder :=
  if s = "" then b else { b with params := b.params ++ [("wt", s)] }

/-- `facet`: pushes `("facet","true")` once, then appends the facet
parameter's built pairs. -/
def EDisMaxQueryBuilder.facet (b : EDisMaxQueryBuilder) (ps : List (String × String)) :
    EDisMaxQueryBuilder :=
  if b.facet_enable then { b with params := b.params ++ ps }
  else { params := b.params ++ [("facet", "true")] ++ ps, facet_enable := true }

/-- `op`: pushes the rendered operator. -/
def EDisMaxQueryBuilder.op (b : EDisMaxQueryBuilder) (o : Operator) : EDisMaxQueryBuilder :=
  { b with params := b.params ++ [("q.op", o.render)] }

/-- `df`: pushes only when nonempty. -/
def EDisMaxQueryBuilder.df (b : EDisMaxQueryBuilder) (s : String) : EDisMaxQueryBuilder :=
  if s = "" then b else { b with params := b.params ++ [("df", s)] }

/-- `q`: pushes only when nonempty. -/
def EDisMaxQueryBuilder.q (b : EDisMaxQueryBuilder) (s : String) : EDisMaxQueryBuilder :=
  if s = "" then b else { b with params := b.params ++ [("q", s)] }

/-- `qf`: pushes only when nonempty. -/
def EDisMaxQueryBuilder.qf (b : EDisMaxQueryBuilder) (s : String) : EDisMaxQueryBuilder :=
  if s = "" then b else { b with params := b.params ++ [("qf", s)] }

/-- `qs`: pushes the rendered number. -/
def EDisMaxQueryBuilder.qs (b : EDisMaxQueryBuilder) (n : Nat) : EDisMaxQueryBuilder :=
  { b with params := b.params ++ [("qs", toString n)] }

/-- `pf`: pushes only when nonempty. -/
def EDisMaxQueryBuilder.pf (b : EDisMaxQueryBuilder) (s : String) : EDisMaxQueryBuilder :=
  if s = "" then b else { b with params := b.params ++ [("pf", s)] }

/-- `ps`: pushes the rendered number. -/
def EDisMaxQueryBuilder.ps (b : EDisMaxQueryBuilder) (n : Nat) : EDisMaxQueryBuilder :=
  { b with params := b.params ++ [("ps", toString n)] }

/-- `mm`: pushes only when nonempty. -/
def EDisMaxQueryBuilder.mm (b : EDisMaxQueryBuilder) (s : String) : EDisMaxQueryBuilder :=
  if s = "" then b else { b with params := b.params ++ [("mm", s)] }

/-- `q_alt`: pushes only when nonempty. -/
def EDisMaxQueryBuilder.qAlt (b : EDisMaxQueryBuilder) (s : String) : EDisMaxQueryBuilder :=
  if s = "" then b else { b with params := b.params ++ [("q.alt", s)] }

/-- `tie`: pushes the rendered f64 (the rendering of the float is taken
as an opaque string argument). -/
def EDisMaxQueryBuilder.tie (b : EDisMaxQueryBuilder) (s : String) : EDisMaxQueryBuilder :=
  { b with params := b.params ++ [("tie", s)] }

/-- `bq`: pushes only when nonempty. -/
def EDisMaxQueryBuilder.bq (b : EDisMaxQueryBuilder) (s : String) : EDisMaxQueryBuilder :=
  if s = "" then b else { b with params := b.params ++ [("bq", s)] }

/-- `bf`: pushes only when nonempty. -/
def EDisMaxQueryBuilder.bf (b : EDisMaxQueryBuilder) (s : String) : EDisMaxQueryBuilder :=
  if s = "" then b else { b with params := b.params ++ [("bf", s)] }

/-- `sow`: pushes the rendered bool. -/
def EDisMaxQueryBuilder.sow (b : EDisMaxQueryBuilder) (v : Bool) : EDisMaxQueryBuilder :=
  { b with params := b.params ++ [("sow", toString v)] }

/-- `boost`: pushes only when nonempty. -/
def EDisMaxQueryBuilder.boost (b : EDisMaxQueryBuilder) (s : String) : EDisMaxQueryBuilder :=
  if s = "" then b else { b with params := b.params ++ [("boost", s)] }

/-- `lowercase_operators`: pushes the rendered bool. -/
def EDisMaxQueryBuilder.lowercaseOperators (b : EDisMaxQueryBuilder) (v : Bool) :
    EDisMaxQueryBuilder :=
  { b with params := b.params ++ [("lowercaseOperators", toString v)] }

/-- `pf2`: pushes only when nonempty. -/
def EDisMaxQueryBuilder.pf2 (b : EDisMaxQueryBuilder) (s : String) : EDisMaxQueryBuilder :=
  if s = "" then b else { b with params := b.params ++ [("pf2", s)] }

/-- `ps2`: pushes the rendered number. -/
def EDisMaxQueryBuilder.ps2 (b : EDisMaxQueryBuilder) (n : Nat) : EDisMaxQueryBuilder :=
  { b with params := b.params ++ [("ps2", toString n)] }

/-- `pf3`: pushes only when nonempty. -/
def EDisMaxQueryBuilder.pf3 (b : EDisMaxQueryBuilder) (s : String) : EDisMaxQueryBuilder :=
  if s = "" then b else { b with params := b.params ++ [("pf3", s)] }

/-- `ps3`: pushes the rendered number. -/
def EDisMaxQueryBuilder.ps3 (b : EDisMaxQueryBuilder) (n : Nat) : EDisMaxQueryBuilder :=
  { b with params := b.params ++ [("ps3", toString n)] }

/-- `stopwords`: pushes the rendered bool. -/
def EDisMaxQueryBuilder.stopwords (b : EDisMaxQueryBuilder) (v : Bool) : EDisMaxQueryBuilder :=
  { b with params := b.params ++ [("stopwords", toString v)] }

/-- `uf`: pushes only when nonempty; note the parameter NAME in the
source is the string "uf3". -/
def EDisMaxQueryBuilder.uf (b : EDisMaxQueryBuilder) (s : String) : EDisMaxQueryBuilder :=
  if s = "" then b else { b with params := b.params ++ [("uf3", s)] }

/-- Modelled from the spec: the era of the two `to_query` call sites uses
a builder `facet` method that attaches the serialized facet configuration
as the single query parameter `json.facet` (spec section 4.4: "The full
facet-configuration object is serialized once and attached as a single
query parameter"; section 6 lists `json.facet`).  That builder revision is
not under src/; like the other string-valued methods it pushes only when
the string is nonempty. -/
def EDisMaxQueryBuilder.jsonFacet (b : EDisMaxQueryBuilder) (s : String) :
    EDisMaxQueryBuilder :=
  if s = "" then b else { b with params := b.params ++ [("json.facet", s)] }

/-- Modelled from the spec: repeated `fq` application over a vector of
filter clauses ("duplicate parameter names (e.g., repeated filter
clauses) are preserved as repeated pairs"); reuses the in-source `fq`. -/
def EDisMaxQueryBuilder.fqList (b : EDisMaxQueryBuilder) (ss : List String) :
    EDisMaxQueryBuilder :=
  ss.foldl EDisMaxQueryBuilder.fq b

/-- One abstract builder call, for quantifying over arbitrary call
sequences. -/
inductive BuilderOp where
  | sort (s : String)
  | start (n : Nat)
  | rows (n : Nat)
  | fq (s : String)
  | fl (s : String)
  | debug
  | wt (s : String)
  | facet (ps : List (String × String))
  | op (o : Operator)
  | df (s : String)
  | q (s : String)
  | qf (s : String)
  | qs (n : Nat)
  | pf (s : String)
  | ps (n : Nat)
  | mm (s : String)
  | qAlt (s : String)
  | tie (s : String)
  | bq (s : String)
  | bf (s : String)
  | sow (v : Bool)
  | boost (s : String)
  | lowercaseOperators (v : Bool)
  | pf2 (s : String)
  | ps2 (n : Nat)
  | pf3 (s : String)
  | ps3 (n : Nat)
  | stopwords (v : Bool)
  | uf (s : String)
  | jsonFacet (s : String)
  | fqList (ss : List String)

/-- Apply one abstract builder call. -/
def EDisMaxQueryBuilder.applyOp (b : EDisMaxQueryBuilder) : BuilderOp → EDisMaxQueryBuilder
  | .sort s => b.sort s
  | .start n => b.start n
  | .rows n => b.rows n
  | .fq s => b.fq s
  | .fl s => b.fl s
  | .debug => b.debug
  | .wt s => b.wt s
  | .facet ps => b.facet ps
  | .op o => b.op o
  | .df s => b.df s
  | .q s => b.q s
  | .qf s => b.qf s
  | .qs n => b.qs n
  | .pf s => b.pf s
  | .ps n => b.ps n
  | .mm s => b.mm s
  | .qAlt s => b.qAlt s
  | .tie s => b.tie s
  | .bq s => b.bq s
  | .bf s => b.bf s
  | .sow v => b.sow v
  | .boost s => b.boost s
  | .lowercaseOperators v => b.lowercaseOperators v
  | .pf2 s => b.pf2 s
  | .ps2 n => b.ps2 n
  | .pf3 s => b.pf3 s
  | .ps3 n => b.ps3 n
  | .stopwords v => b.stopwords v
  | .uf s => b.uf s
  | .jsonFacet s => b.jsonFacet s
  | .fqList ss => b.fqList ss

/-- Apply a sequence of abstract builder calls. -/
def EDisMaxQueryBuilder.applyOps (b : EDisMaxQueryBuilder) (ops : List BuilderOp) :
    EDisMaxQueryBuilder :=
  ops.foldl EDisMaxQueryBuilder.applyOp b

/-! ## Generation pipeline saver, from
src/atcoder_search_libs/src/indexing.rs (`GenerateDocument::generate`) and
src/atcoder_search/src/modules/generator.rs (`DocumentGenerator::generate`).

The saver task drains the channel: per received document it increments
`suffix`, pushes the document onto the current batch, and whenever the
batch reaches `chunk_size` it writes the batch as the file
`doc-{suffix}.json` and clears the batch; after the channel closes a
nonempty leftover batch is written as a final `doc-{suffix}.json`.  The
model below runs the same loop over the list of documents in the order the
consumer receives them (fan-out producers make that order an arbitrary
permutation of the generated documents); each written file is one
`(suffix, batch)` pair. -/

/-- The saver loop: `suffix` is the count of documents received so far,
`batch` the documents accumulated since the last flush. -/
def saverLoop (D : Type) (chunkSize : Nat) (suffix : Nat) (batch : List D) :
    List D → List (Nat × List D)
  | [] => if batch.isEmpty then [] else [(suffix, batch)]
  | d :: ds =>
    let batch1 := batch ++ [d]
    if chunkSize ≤ batch1.length then
      (suffix + 1, batch1) :: saverLoop D chunkSize (suffix + 1) [] ds
    else
      saverLoop D chunkSize (suffix + 1) batch1 ds

/-- The whole saver task on the received document list: suffix starts at
0, batch starts empty. -/
def runSaver (D : Type) (chunkSize : Nat) (docs : List D) : List (Nat × List D) :=
  saverLoop D chunkSize 0 [] docs

/-- Cumulative sums of a list starting from `acc`, for stating what the
unit file numbers are. -/
def cumSums : List Nat → Nat → List Nat
  | [], _ => []
  | x :: xs, acc => (acc + x) :: cumSums xs (acc + x)

/-! ## Field expansion, from
src/backend/atcoder_search_derive/src/expand_field.rs (`impl_expand_field`).

For each declared field of the record, in declaration order: a field with
no `#[suffix(...)]` attribute is emitted under its own name (a `DateTime`
field's value is rendered to UTC RFC3339 at that point); a field with
suffixes is emitted once per suffix under `base__suffix` and then once
under its own base name, every copy carrying `self.#ident`, the identical
value. -/

/-- One declared field of a record processed by `#[derive(ExpandField)]`:
its name, its (already serialized) value, its static suffix list, and
whether its type is a `DateTime` (whose no-suffix branch re-renders the
value with `dtNorm`). -/
structure ExField (V : Type) where
  name : String
  value : V
  suffixes : List String
  isDateTime : Bool

/-- The entries the derived `expand` emits for one field. -/
def expandOne {V : Type} (dtNorm : V → V) (f : ExField V) : List (String × V) :=
  if f.suffixes.isEmpty then
    if f.isDateTime then [(f.name, dtNorm f.value)] else [(f.name, f.value)]
  else
    (f.suffixes.map (fun sfx => (f.name ++ "__" ++ sfx, f.value))) ++ [(f.name, f.value)]

/-- The derived `expand`: concatenation of every field's entries in
declaration order (the `serde_json::json!` object built from them). -/
def expandFields {V : Type} (dtNorm : V → V) (fields : List (ExField V)) :
    List (String × V) :=
  fields.flatMap (expandOne dtNorm)

/-! ## Full-text extractor, from
src/backend/atcoder_search/src/modules/problems/extractor.rs.

`Html::parse_document` (html5ever) is total: it error-corrects arbitrary
input and always yields a node tree, so the model works directly on the
parsed tree.  Elements carry a tag name, an attribute list and children;
the other node kinds the extractor distinguishes are text and everything
else (comments, processing instructions, ...). -/

/-- Rust `str::trim` on a character list: drop Unicode whitespace from
both ends (Lean's `Char.isWhitespace` covers the ASCII whitespace the
stored markup contains). -/
def trimChars (cs : List Char) : List Char :=
  ((cs.dropWhile Char.isWhitespace).reverse.dropWhile Char.isWhitespace).reverse

/-- String-level `str::trim`. -/
def trimModel (s : String) : String := String.mk (trimChars s.data)

/-- Is `pat` an infix of `cs`?  (Rust `str::contains`.) -/
def infixOf (pat : List Char) : List Char → Bool
  | [] => pat.isEmpty
  | c :: cs => pat.isPrefixOf (c :: cs) || infixOf pat cs

/-- Rust `str::contains` on strings. -/
def containsSub (s pat : String) : Bool := infixOf pat.data s.data

/-- Whitespace-separated words of a class attribute value (`acc` holds
the current word reversed). -/
def wordsAux : List Char → List Char → List String
  | [], acc => if acc.isEmpty then [] else [String.mk acc.reverse]
  | c :: cs, acc =>
    if c.isWhitespace then
      if acc.isEmpty then wordsAux cs [] else String.mk acc.reverse :: wordsAux cs []
    else wordsAux cs (c :: acc)

/-- The class tokens of a `class` attribute value. -/
def classTokens (s : String) : List String := wordsAux s.data []

mutual
/-- A parsed HTML node; children form an `HForest` (a mutual inductive so
that the traversals below are structurally recursive). -/
inductive HNode where
  | elem (name : String) (attrs : List (String × String)) (children : HForest)
  | text (s : String)
  | other
/-- A sequence of sibling HTML nodes. -/
inductive HForest where
  | nil
  | cons (head : HNode) (tail : HForest)
end

/-- Build a forest from a list of nodes. -/
def HForest.ofList : List HNode → HForest
  | [] => .nil
  | n :: ns => .cons n (HForest.ofList ns)

/-- Attribute lookup on an element (None on non-elements). -/
def HNode.attr (n : HNode) (key : String) : Option String :=
  match n with
  | .elem _ attrs _ => (attrs.find? (fun a => a.1 = key)).map Prod.snd
  | _ => none

/-- The children of a node. -/
def HNode.childForest : HNode → HForest
  | .elem _ _ cs => cs
  | _ => .nil

mutual
/-- The element nodes of a subtree, root included, in document
(preorder) order. -/
def elemsOfNode : HNode → List HNode
  | .elem nm attrs gcs => HNode.elem nm attrs gcs :: elemsOfForest gcs
  | _ => []
/-- The element nodes of a forest in document (preorder) order; this is
what iterating a `Select` over the tree yields. -/
def elemsOfForest : HForest → List HNode
  | .nil => []
  | .cons c cs => elemsOfNode c ++ elemsOfForest cs
end

/-- `Html::select`: every element of the document matching the predicate,
in document order. -/
def selectDoc (doc : HForest) (p : HNode → Bool) : List HNode :=
  (elemsOfForest doc).filter p

/-- `ElementRef::select`: every element strictly below `n` matching the
predicate, in document order. -/
def selectIn (n : HNode) (p : HNode → Bool) : List HNode :=
  (elemsOfForest n.childForest).filter p

/-- Does the `class` attribute contain the given class token
(whitespace-separated), as the CSS class selector requires? -/
def HNode.hasClass (n : HNode) (c : String) : Bool :=
  match n.attr "class" with
  | some v => (classTokens v).contains c
  | none => false

/-- Selector `span.lang-ja`. -/
def isSpanJa (n : HNode) : Bool :=
  match n with
  | .elem nm _ _ => nm = "span" && n.hasClass "lang-ja"
  | _ => false

/-- Selector `span.lang-en`. -/
def isSpanEn (n : HNode) : Bool :=
  match n with
  | .elem nm _ _ => nm = "span" && n.hasClass "lang-en"
  | _ => false

/-- Selector `section`. -/
def isSection (n : HNode) : Bool :=
  match n with
  | .elem nm _ _ => nm = "section"
  | _ => false

/-- Selector `h3`. -/
def isH3 (n : HNode) : Bool :=
  match n with
  | .elem nm _ _ => nm = "h3"
  | _ => false

/-- Selector `meta` filtered on `property="og:url"`, as in
`get_problem_id`. -/
def isOgMeta (n : HNode) : Bool :=
  match n with
  | .elem nm _ _ => nm = "meta" && n.attr "property" = some "og:url"
  | _ => false

mutual
/-- The text nodes of one node's subtree in document order
(`ElementRef::text` on that node). -/
def textsOfNode : HNode → List String
  | .elem _ _ gcs => textsOfForest gcs
  | .text s => [s]
  | .other => []
/-- The text nodes of a forest in document order. -/
def textsOfForest : HForest → List String
  | .nil => []
  | .cons c cs => textsOfNode c ++ textsOfForest cs
end

mutual
/-- One child's contribution to `FullTextExtractor::dfs`: `pre` and `h3`
elements are skipped, a `var` element's rendering is padded with one
space on each side, text nodes are trimmed. -/
def dfsPiece : HNode → String
  | .elem nm _ gcs =>
    if nm = "pre" || nm = "h3" then ""
    else if nm = "var" then " " ++ dfsForest gcs ++ " "
    else dfsForest gcs
  | .text s => trimModel s
  | .other => ""
/-- `FullTextExtractor::dfs` over a child sequence: concatenate every
child's contribution. -/
def dfsForest : HForest → String
  | .nil => ""
  | .cons c cs => dfsPiece c ++ dfsForest cs
end

/-- `dfs` applied to an element: iterate its children. -/
def dfsNode (n : HNode) : String := dfsForest n.childForest

/-- The section scan shared by all three branches of `extract`: for each
`section`, take its first `h3` descendant (skip the section if none), the
h3's first text node (skip if none), and if that text contains the marker
word, collect the section's `dfs` rendering. -/
def scanSections (sections : List HNode) (marker : String) : List String :=
  sections.filterMap (fun sec =>
    match (selectIn sec isH3).head? with
    | none => none
    | some h3 =>
      match (textsOfForest h3.childForest).head? with
      | none => none
      | some t => if containsSub t marker then some (dfsNode sec) else none)

/-- The native-language segments: sections inside the first
`span.lang-ja` wrapper when one exists, otherwise the whole-document
fallback scan, with marker `"問題"`. -/
def jaSegments (doc : HForest) : List String :=
  match (selectDoc doc isSpanJa).head? with
  | some ja => scanSections (selectIn ja isSection) "問題"
  | none => scanSections (selectDoc doc isSection) "問題"

/-- The secondary-language segments: sections inside the first
`span.lang-en` wrapper with marker `"Statement"`; empty when no wrapper
exists. -/
def enSegments (doc : HForest) : List String :=
  match (selectDoc doc isSpanEn).head? with
  | some en => scanSections (selectIn en isSection) "Statement"
  | none => []

/-- Model of `url::Url::parse(content)` followed by
`url.path().rsplit('/').next()`: `none` exactly when URL parsing fails.
The crate's first check is the WHATWG scheme rule — after trimming, the
input must start with an ASCII alphabetic character followed by
alphanumerics or `+`, `-`, `.` up to a `:`; a string without such a
scheme is rejected as a relative URL without a base (the failure mode
`extract` can actually hit on stored pages).  On success the value (used
for logging only) is the substring after the last `/` of the remainder,
query and fragment stripped — a simplification of the crate's exact path
splitting that is irrelevant to control flow. -/
def schemeScan : List Char → Option (List Char)
  | [] => none
  | c :: cs =>
    if c = ':' then some cs
    else if c.isAlphanum || c = '+' || c = '-' || c = '.' then schemeScan cs
    else none

/-- URL-parse model, see `schemeScan`. -/
def parseUrlId (s : String) : Option String :=
  match (trimModel s).data with
  | [] => none
  | c :: cs =>
    if c.isAlpha then
      match schemeScan cs with
      | none => none
      | some rest =>
        let noFrag := rest.takeWhile (fun ch => ch ≠ '?' && ch ≠ '#')
        some (String.mk ((noFrag.reverse.takeWhile (fun ch => ch ≠ '/')).reverse))
    else none

/-- The loop of `get_problem_id` over the `og:url` meta elements: the
first one carrying a `content` attribute decides the result — an error when
its content does not URL-parse, otherwise the extracted identifier; metas
without `content` are skipped; no meta at all yields `Ok(None)`. -/
def ogLoop : List HNode → Except Unit (Option String)
  | [] => .ok none
  | m :: ms =>
    match m.attr "content" with
    | none => ogLoop ms
    | some content =>
      match parseUrlId content with
      | none => .error ()
      | some id => .ok (some id)

/-- `FullTextExtractor::get_problem_id`. -/
def getProblemId (doc : HForest) : Except Unit (Option String) :=
  ogLoop (selectDoc doc isOgMeta)

/-- `FullTextExtractor::extract`: propagate a `get_problem_id` failure
(the identifier itself only feeds `tracing::debug`), then collect the
two segment sequences. -/
def extract (doc : HForest) : Except Unit (List String × List String) :=
  match getProblemId doc with
  | .error e => .error e
  | .ok _ => .ok (jaSegments doc, enSegments doc)

/-- The content of the first `og:url` meta that has a `content`
attribute, the datum `extract`'s success hinges on. -/
def firstOgContent (doc : HForest) : Option String :=
  ((selectDoc doc isOgMeta).filterMap (fun m => m.attr "content")).head?

/-- Does the canonical-URL metadata of the document URL-parse (vacuously
true when absent)? -/
def ogUrlOk (doc : HForest) : Bool :=
  match firstOgContent doc with
  | none => true
  | some c => (parseUrlId c).isSome

/-- Is an `extract` run successful? -/
def extractOk (doc : HForest) : Bool :=
  match extract doc with
  | .ok _ => true
  | .error _ => false

/-! ## Search request to engine query, from
src/backend/atcoder_search/src/modules/handlers/problem.rs (backend
handler) and src/atcoder_search/src/modules/models/request.rs (older
pipeline).  Both share `RangeFilterParameter::to_range`, whose body is
identical in src/backend/atcoder_search_libs/src/api.rs and request.rs. -/

/-- `RangeFilterParameter`: optional i32 bounds.  The Rust field names
`from`/`to` are Lean keywords, hence `fromVal`/`toVal`. -/
structure RangeFilterParameter where
  fromVal : Option Int
  toVal : Option Int
deriving DecidableEq

/-- Render an optional bound, `*` when absent. -/
def optBound : Option Int → String
  | some v => toString v
  | none => "*"

/-- `RangeFilterParameter::to_range`: `None` when both bounds are absent,
otherwise the `[from TO to}` bracket expression with `*` for an absent
bound. -/
def RangeFilterParameter.to_range (r : RangeFilterParameter) : Option String :=
  if r.fromVal.isNone && r.toVal.isNone then none
  else some ("[" ++ optBound r.fromVal ++ " TO " ++ optBound r.toVal ++ "\x7d")

/-- Backend `FilterParameter` (problem.rs). -/
structure FilterParameter where
  category : Option (List String)
  difficulty : Option RangeFilterParameter

/-- Backend `FilterParameter::to_query`: the category clause joins the
SANITIZED values with " OR " (`categories.iter().map(|c| sanitize(c))`),
the difficulty clause uses `to_range`; each clause is prefixed with its
own `{!tag=...}`. -/
def FilterParameter.to_query (nfkc : String → String) (f : FilterParameter) : List String :=
  (match f.category with
   | some cats =>
     ["\x7b!tag=category\x7dcategory:(" ++
       String.intercalate " OR " (cats.map (sanitize nfkc)) ++ ")"]
   | none => []) ++
  (match f.difficulty with
   | some d =>
     match d.to_range with
     | some range => ["\x7b!tag=difficulty\x7ddifficulty:" ++ range]
     | none => []
   | none => [])

/-- Older `FilterParameters` (request.rs). -/
structure FilterParameters where
  category : Option (List String)
  difficulty : Option RangeFilterParameter

/-- Older `FilterParameters::to_query`: identical shape, but the category
values are joined RAW (`categories.join(" OR ")`), without sanitize. -/
def FilterParameters.to_query (f : FilterParameters) : List String :=
  (match f.category with
   | some cats => ["\x7b!tag=category\x7dcategory:(" ++ String.intercalate " OR " cats ++ ")"]
   | none => []) ++
  (match f.difficulty with
   | some d =>
     match d.to_range with
     | some range => ["\x7b!tag=difficulty\x7ddifficulty:" ++ range]
     | none => []
   | none => [])

/-- The sort rendering both `to_query` impls inline: a leading `-` is
stripped and the direction becomes ` desc`, otherwise ` asc` is
appended. -/
def renderSort (s : String) : String :=
  if "-".data.isPrefixOf s.data then String.mk (s.data.drop 1) ++ " desc" else s ++ " asc"

/-- serde_json rendering of the older pipeline's `category` term-facet
configuration (`json!` objects are BTreeMap-backed, so keys serialize in
alphabetical order, compact separators). -/
def oldCatFacetJson : String :=
  "\x7b\"domain\":\x7b\"excludeTags\":[\"category\"]\x7d,\"field\":\"category\",\"limit\":-1,\"mincount\":0,\"type\":\"terms\"\x7d"

/-- serde_json rendering of the older pipeline's `difficulty` range-facet
configuration. -/
def oldDiffFacetJson : String :=
  "\x7b\"domain\":\x7b\"excludeTags\":[\"difficulty\"]\x7d,\"end\":4000,\"field\":\"difficulty\",\"gap\":400,\"other\":\"all\",\"start\":0,\"type\":\"range\"\x7d"

/-- The older pipeline's facet parameter string: a BTreeMap keyed by the
requested facet names, `category` and `difficulty` recognized, other
names skipped; `None` facet list yields the empty string
(`unwrap_or("")`). -/
def oldFacetString : Option (List String) → String
  | none => ""
  | some fields =>
    let entries :=
      (if fields.contains "category" then ["\"category\":" ++ oldCatFacetJson] else []) ++
      (if fields.contains "difficulty" then ["\"difficulty\":" ++ oldDiffFacetJson] else [])
    "\x7b" ++ String.intercalate "," entries ++ "\x7d"

/-- serde_json rendering of the backend handler's `category` term-facet
configuration (FACET_FIELDS maps category to the physical field
`category`). -/
def backendCatFacetJson : String :=
  "\x7b\"domain\":\x7b\"excludeTags\":[\"category\"]\x7d,\"field\":\"category\",\"limit\":-1,\"mincount\":0,\"sort\":\"index\",\"type\":\"terms\"\x7d"

/-- serde_json rendering of the backend handler's `difficulty` term-facet
configuration (FACET_FIELDS maps difficulty to the physical field
`color`). -/
def backendDiffFacetJson : String :=
  "\x7b\"domain\":\x7b\"excludeTags\":[\"difficulty\"]\x7d,\"field\":\"color\",\"limit\":-1,\"mincount\":0,\"sort\":\"index\",\"type\":\"terms\"\x7d"

/-- The backend handler's facet parameter string (BTreeMap keyed by the
requested names resolved through FACET_FIELDS, unknown names skipped). -/
def backendFacetString : Option (List String) → String
  | none => ""
  | some fields =>
    let entries :=
      (if fields.contains "category" then ["\"category\":" ++ backendCatFacetJson] else []) ++
      (if fields.contains "difficulty" then ["\"difficulty\":" ++ backendDiffFacetJson] else [])
    "\x7b" ++ String.intercalate "," entries ++ "\x7d"

/-- `ResponseDocument::field_list()` (derive FieldList on the older
response document: declaration-order field names joined by commas). -/
def responseDocumentFieldList : String :=
  "problem_id,problem_title,problem_url,contest_id,contest_title,contest_url,difficulty,start_at,duration,rate_change,category"

/-- `ProblemResponse::field_list()` (backend response document). -/
def problemResponseFieldList : String :=
  "problem_id,problem_title,problem_url,contest_id,contest_title,contest_url,difficulty,color,start_at,duration,rate_change,category"

/-- Older `SearchQueryParameters` (request.rs). -/
structure SearchQueryParameters where
  keyword : Option String
  limit : Option Nat
  page : Option Nat
  filter : Option FilterParameters
  sort : Option String
  facet : Option (List String)

/-- Older `SearchQueryParameters::to_query`: defaults `rows = 20`,
`page = 1`, `start = (page-1)*rows`; keyword sanitized; sort rendered or
defaulted to the EMPTY string; then the fixed builder-call chain. -/
def SearchQueryParameters.to_query (nfkc : String → String) (p : SearchQueryParameters) :
    List (String × String) :=
  let rows := p.limit.getD 20
  let page := p.page.getD 1
  let start := (page - 1) * rows
  let keyword := (p.keyword.map (sanitize nfkc)).getD ""
  let sortV := (p.sort.map renderSort).getD ""
  let fq := (p.filter.map FilterParameters.to_query).getD []
  let facetV := oldFacetString p.facet
  (((((((((((EDisMaxQueryBuilder.new.jsonFacet facetV).fl
    responseDocumentFieldList).fqList fq).op Operator.AND).q keyword).qAlt
    "*:*").qf "text_ja text_en text_1gram").rows rows).sort sortV).sow
    true).start start).build

/-- Backend `ProblemSearchParameter` (problem.rs). -/
structure ProblemSearchParameter where
  keyword : Option String
  limit : Option Nat
  page : Option Nat
  filter : Option FilterParameter
  sort : Option String
  facet : Option (List String)

/-- Backend `ProblemSearchParameter::to_query`: the same chain, but the
sort default is the fixed tiebreak `"problem_id asc"`, the filter clauses
sanitize their values, and the facet/field-list strings are the backend
ones. -/
def ProblemSearchParameter.to_query (nfkc : String → String) (p : ProblemSearchParameter) :
    List (String × String) :=
  let rows := p.limit.getD 20
  let page := p.page.getD 1
  let start := (page - 1) * rows
  let keyword := (p.keyword.map (sanitize nfkc)).getD ""
  let sortV := (p.sort.map renderSort).getD "problem_id asc"
  let fq := (p.filter.map (FilterParameter.to_query nfkc)).getD []
  let facetV := backendFacetString p.facet
  (((((((((((EDisMaxQueryBuilder.new.jsonFacet facetV).fl
    problemResponseFieldList).fqList fq).op Operator.AND).q keyword).qAlt
    "*:*").qf "text_ja text_en text_1gram").rows rows).sort sortV).sow
    true).start start).build

/-- The pairs of a built query carrying the parameter name `sort`. -/
def sortPairs (q : List (String × String)) : List (String × String) :=
  q.filter (fun pr => pr.1 = "sort")

/-- The disk name of the chunked output unit flushed at document count
`n` (`doc-{suffix}.json`). -/
def unitFileName (n : Nat) : String := "doc-" ++ toString n ++ ".json"

-- Equality of `Except` results is decidable componentwise.
deriving instance DecidableEq for Except

/-- A parsed page whose canonical-URL metadata content is not a parseable
URL (the url crate rejects `"not a url"` as a relative URL without a
base), while the page itself parsed fine. -/
def badOgDoc : HForest :=
  HForest.ofList [.elem "meta" [("property", "og:url"), ("content", "not a url")] .nil]

/-- A parsed page with no language wrapper but with a statement-headed
section, triggering the whole-document fallback scan. -/
def fallbackDoc : HForest :=
  HForest.ofList [.elem "section" []
    (.ofList [.elem "h3" [] (.ofList [.text "問題文"]), .text "abc"])]

/-- A parsed page with no language wrapper and no statement-headed
section. -/
def noStatementDoc : HForest :=
  HForest.ofList [.elem "section" []
    (.ofList [.elem "h3" [] (.ofList [.text "Input"]), .text "xyz"])]

/-! ## Theorems -/

/-- If no reserved token occurs, the escaping scan is the identity. -/
theorem escLoop_id : ∀ cs, hasTok cs = false → escapeLoop cs = cs := by
  intro cs h
  induction cs using escapeLoop.induct with
  | case1 => rfl
  | case2 cs ih => simp [hasTok] at h
  | case3 cs ih => simp [hasTok] at h
  | case4 cs ih => simp [hasTok] at h
  | case5 cs ih => simp [hasTok] at h
  | case6 c cs h1 h2 h3 h4 hmem ih =>
    exfalso
    rw [hasTok] at h
    · simp at h
      exact h.1 hmem
    · exact h1
    · exact h2
    · exact h3
    · exact h4
  | case7 c cs h1 h2 h3 h4 hmem ih =>
    rw [hasTok] at h
    · simp at h
      rw [escapeLoop]
      · rw [if_neg hmem, ih h.2]
      · exact h1
      · exact h2
      · exact h3
      · exact h4
    · exact h1
    · exact h2
    · exact h3
    · exact h4

/-- C5: `sanitize` first applies NFKC normalization and then escapes each
occurrence of an engine-reserved token by prefixing it with the escape
character, leaving all other text untouched; in particular
`sanitize "foo OR bar" = "foo \OR bar"` and `sanitize "a:b" = "a\:b"`
(the two concrete conclusions hold under the fact, true of NFKC, that
these ASCII strings normalize to themselves). -/
theorem sanitize_spec (nfkc : String → String) (s : String) :
    sanitize nfkc s = escapeString (nfkc s) ∧
    (hasTok (nfkc s).data = false → sanitize nfkc s = nfkc s) ∧
    (nfkc "foo OR bar" = "foo OR bar" → sanitize nfkc "foo OR bar" = "foo \\OR bar") ∧
    (nfkc "a:b" = "a:b" → sanitize nfkc "a:b" = "a\\:b") := by
  refine ⟨rfl, ?_, ?_, ?_⟩
  · intro h
    show String.mk (escapeLoop (nfkc s).data) = nfkc s
    rw [escLoop_id _ h]
  · intro h
    show escapeString (nfkc "foo OR bar") = _
    rw [h]
    decide
  · intro h
    show escapeString (nfkc "a:b") = _
    rw [h]
    decide

/-- Witness for C5 at `nfkc := id` (NFKC is the identity on these ASCII
strings) and the token-free input `"hello"`. -/
theorem sanitize_spec_witness :
    hasTok ("hello".data) = false ∧ sanitize id "hello" = "hello" ∧
    sanitize id "foo OR bar" = "foo \\OR bar" ∧ sanitize id "a:b" = "a\\:b" :=
  ⟨by decide, (sanitize_spec id "hello").2.1 (by decide),
    (sanitize_spec id "foo OR bar").2.2.1 rfl, (sanitize_spec id "a:b").2.2.2 rfl⟩

/-- `fq` only ever appends to the parameter list. -/
theorem fq_params_extends (b : EDisMaxQueryBuilder) (s : String) :
    b.params <+: (b.fq s).params := by
  unfold EDisMaxQueryBuilder.fq
  split
  · exact List.prefix_rfl
  · exact List.prefix_append _ _

/-- Folded `fq` only ever appends to the parameter list. -/
theorem fqList_params_extends : ∀ (ss : List String) (b : EDisMaxQueryBuilder),
    b.params <+: (b.fqList ss).params := by
  intro ss
  induction ss with
  | nil => intro b; exact List.prefix_rfl
  | cons s ss ih =>
    intro b
    exact (fq_params_extends b s).trans (ih (b.fq s))

/-- Every builder method only ever appends to the parameter list. -/
theorem applyOp_params_extends (b : EDisMaxQueryBuilder) (o : BuilderOp) :
    b.params <+: (b.applyOp o).params := by
  cases o <;>
    first
      | exact fq_params_extends _ _
      | exact fqList_params_extends _ _
      | exact ⟨_, rfl⟩
      | (simp only [EDisMaxQueryBuilder.applyOp, EDisMaxQueryBuilder.fl,
          EDisMaxQueryBuilder.wt, EDisMaxQueryBuilder.df, EDisMaxQueryBuilder.q,
          EDisMaxQueryBuilder.qf, EDisMaxQueryBuilder.pf, EDisMaxQueryBuilder.mm,
          EDisMaxQueryBuilder.qAlt, EDisMaxQueryBuilder.bq, EDisMaxQueryBuilder.bf,
          EDisMaxQueryBuilder.boost, EDisMaxQueryBuilder.pf2, EDisMaxQueryBuilder.pf3,
          EDisMaxQueryBuilder.jsonFacet, EDisMaxQueryBuilder.uf, EDisMaxQueryBuilder.facet]
         <;> split
         <;> first
           | exact ⟨[], List.append_nil _⟩
           | exact ⟨_, rfl⟩
           | exact ⟨_, (List.append_assoc _ _ _).symm⟩)

/-- Any sequence of builder calls only ever appends to the parameter
list. -/
theorem applyOps_params_extends : ∀ (ops : List BuilderOp) (b : EDisMaxQueryBuilder),
    b.params <+: (b.applyOps ops).params := by
  intro ops
  induction ops with
  | nil => intro b; exact List.prefix_rfl
  | cons o ops ih =>
    intro b
    exact (applyOp_params_extends b o).trans (ih (b.applyOp o))

/-- C9: for every sequence of builder method calls, the parameter list
returned by `build()` has the pair `("defType", "edismax")` as its first
element, fixed by `new` and preserved by every builder method. -/
theorem defType_first (ops : List BuilderOp) :
    ((EDisMaxQueryBuilder.new.applyOps ops).build).head? = some ("defType", "edismax") := by
  obtain ⟨t, ht⟩ := applyOps_params_extends ops EDisMaxQueryBuilder.new
  show (EDisMaxQueryBuilder.new.applyOps ops).params.head? = _
  rw [← ht]
  rfl

/-- C10: `uf` with a nonempty string appends exactly one pair named
`"uf3"` (not `"uf"`) carrying the argument; `uf` with the empty string
appends nothing. -/
theorem uf_pushes_uf3 (b : EDisMaxQueryBuilder) (u : String) (h : u ≠ "") :
    (b.uf u).params = b.params ++ [("uf3", u)] ∧ (b.uf "").params = b.params := by
  constructor
  · unfold EDisMaxQueryBuilder.uf
    rw [if_neg h]
  · rfl

/-- Witness for C10 on the fresh builder and the argument `"x"`. -/
theorem uf_pushes_uf3_witness :
    ("x" : String) ≠ "" ∧
    ((EDisMaxQueryBuilder.new.uf "x").params =
        EDisMaxQueryBuilder.new.params ++ [("uf3", "x")] ∧
      (EDisMaxQueryBuilder.new.uf "").params = EDisMaxQueryBuilder.new.params) :=
  ⟨by decide, uf_pushes_uf3 EDisMaxQueryBuilder.new "x" (by decide)⟩

/-- The keys one field contributes: its suffixed names then its base
name (just the base name when it has no suffixes). -/
theorem expandOne_keys {V : Type} (dtNorm : V → V) (f : ExField V) :
    (expandOne dtNorm f).map Prod.fst =
      f.suffixes.map (fun sfx => f.name ++ "__" ++ sfx) ++ [f.name] := by
  unfold expandOne
  split
  · next hempty =>
    rw [List.isEmpty_iff] at hempty
    rw [hempty]
    split <;> simp
  · simp

/-- C4: the output document key list of `expand` is exactly, per field in
declaration order, the declared `base__suffix` keys plus the base name
(so the key set is the base names unioned with the suffixed names and the
base is never dropped), and every suffixed entry carries exactly its base
field value, which is also emitted under the base name. -/
theorem expand_field_spec {V : Type} (dtNorm : V → V) (fields : List (ExField V)) :
    ((expandFields dtNorm fields).map Prod.fst =
      fields.flatMap (fun f => f.suffixes.map (fun sfx => f.name ++ "__" ++ sfx) ++ [f.name])) ∧
    (∀ f ∈ fields, ∀ sfx ∈ f.suffixes,
      (f.name ++ "__" ++ sfx, f.value) ∈ expandFields dtNorm fields ∧
      (f.name, f.value) ∈ expandFields dtNorm fields) := by
  constructor
  · induction fields with
    | nil => rfl
    | cons f fs ih =>
      simp only [expandFields, List.flatMap_cons, List.map_append, expandOne_keys]
      rw [← expandFields]
      rw [ih]
  · intro f hf sfx hsfx
    have hne : ¬f.suffixes.isEmpty := by
      cases hs : f.suffixes with
      | nil => rw [hs] at hsfx; cases hsfx
      | cons a l => simp [hs]
    have hmem : ∀ p ∈ expandOne dtNorm f, p ∈ expandFields dtNorm fields := by
      intro p hp
      exact List.mem_flatMap.mpr ⟨f, hf, hp⟩
    constructor
    · apply hmem
      unfold expandOne
      rw [if_neg hne]
      exact List.mem_append_left _ (List.mem_map.mpr ⟨sfx, hsfx, rfl⟩)
    · apply hmem
      unfold expandOne
      rw [if_neg hne]
      exact List.mem_append_right _ (List.mem_singleton.mpr rfl)

/-- Witness for C4 on a two-field record shaped like `ProblemIndex`
(`problem_title` carries suffixes `text_ja`, `text_en`). -/
theorem expand_field_spec_witness :
    (⟨"problem_title", 1, ["text_ja", "text_en"], false⟩ : ExField Nat) ∈
        ([⟨"problem_title", 1, ["text_ja", "text_en"], false⟩,
          ⟨"problem_id", 2, [], false⟩] : List (ExField Nat)) ∧
    "text_ja" ∈ ["text_ja", "text_en"] ∧
    (("problem_title" ++ "__" ++ "text_ja", 1) ∈
        expandFields id [⟨"problem_title", 1, ["text_ja", "text_en"], false⟩,
          ⟨"problem_id", 2, [], false⟩] ∧
      ("problem_title", 1) ∈
        expandFields id [⟨"problem_title", 1, ["text_ja", "text_en"], false⟩,
          ⟨"problem_id", 2, [], false⟩]) :=
  ⟨List.mem_cons_self _ _, List.mem_cons_self _ _,
    (expand_field_spec id _).2 _ (List.mem_cons_self _ _) "text_ja" (List.mem_cons_self _ _)⟩

/-- Flushed units partition the received documents: concatenating the
units in flush order gives back the pending batch followed by the
remaining stream. -/
theorem saverLoop_join (D : Type) (c : Nat) :
    ∀ (ds : List D) (s : Nat) (batch : List D),
      ((saverLoop D c s batch ds).map Prod.snd).flatten = batch ++ ds := by
  intro ds
  induction ds with
  | nil =>
    intro s batch
    unfold saverLoop
    split
    · next hempty => simp [List.isEmpty_iff.mp hempty]
    · simp
  | cons d ds ih =>
    intro s batch
    unfold saverLoop
    simp only []
    split
    · simp [ih]
    · simp [ih]

/-- Unit count: with a pending batch shorter than the chunk size, the
saver flushes ceil((pending + remaining) / chunkSize) units. -/
theorem saverLoop_length (D : Type) (c : Nat) (hc : 1 ≤ c) :
    ∀ (ds : List D) (s : Nat) (batch : List D), batch.length < c →
      (saverLoop D c s batch ds).length = (batch.length + ds.length + c - 1) / c := by
  intro ds
  induction ds with
  | nil =>
    intro s batch hb
    unfold saverLoop
    split
    · next hempty =>
      rw [List.isEmpty_iff.mp hempty]
      simp only [List.length_nil, Nat.add_zero, Nat.zero_add]
      exact (Nat.div_eq_of_lt (by omega)).symm
    · next hne =>
      have h1 : 1 ≤ batch.length := by
        cases hb2 : batch with
        | nil => rw [hb2] at hne; simp at hne
        | cons a l => simp
      show 1 = _
      simp only [List.length_nil, Nat.add_zero]
      exact (Nat.div_eq_of_lt_le (by omega) (by omega)).symm
  | cons d ds ih =>
    intro s batch hb
    unfold saverLoop
    simp only []
    split
    · next hfull =>
      have hlen : batch.length + 1 = c := by
        simp only [List.length_append, List.length_cons, List.length_nil] at hfull
        omega
      have hrest := ih (s + 1) [] (by simp only [List.length_nil]; omega)
      simp only [List.length_nil, Nat.zero_add] at hrest
      simp only [List.length_cons, hrest]
      have hnum : batch.length + (ds.length + 1) + c - 1 = ds.length + c - 1 + c := by omega
      rw [hnum, Nat.add_div_right _ (by omega : 0 < c)]
    · next hnotfull =>
      have hlt : (batch ++ [d]).length < c := by
        simp only [List.length_append, List.length_cons, List.length_nil] at hnotfull ⊢
        omega
      rw [ih (s + 1) (batch ++ [d]) hlt]
      simp only [List.length_append, List.length_cons, List.length_nil]
      congr 1
      omega

/-- C1: for chunk size c >= 1 and any consumer arrival order of the n
generated documents, the saver flushes exactly ceil(n / c) units (zero
when n = 0) and the concatenation of the units is a permutation of the
generated documents — each document lands in exactly one unit, no
duplicates. -/
theorem generate_chunk_count {D : Type} (c : Nat) (docs gen : List D)
    (hc : 1 ≤ c) (hperm : docs.Perm gen) :
    (runSaver D c docs).length = (gen.length + c - 1) / c ∧
    ((runSaver D c docs).map Prod.snd).flatten.Perm gen := by
  constructor
  · have h := saverLoop_length D c hc docs 0 [] (by simp only [List.length_nil]; omega)
    simpa [runSaver, hperm.length_eq] using h
  · rw [runSaver, saverLoop_join]
    simpa using hperm

/-- Witness for C1: c = 2 and three documents arriving in the order
[1, 2, 3] generated as [3, 1, 2]. -/
theorem generate_chunk_count_witness :
    1 ≤ 2 ∧ ([1, 2, 3] : List Nat).Perm [3, 1, 2] ∧
    ((runSaver Nat 2 [1, 2, 3]).length = (([3, 1, 2] : List Nat).length + 2 - 1) / 2 ∧
      ((runSaver Nat 2 [1, 2, 3]).map Prod.snd).flatten.Perm [3, 1, 2]) :=
  ⟨by decide, by decide, generate_chunk_count 2 [1, 2, 3] [3, 1, 2] (by decide) (by decide)⟩

/-- The file numbers of the flushed units are the cumulative document
counts: the saver stamps each unit with the total number of documents
received when it is flushed. -/
theorem saverLoop_fst (D : Type) (c : Nat) :
    ∀ (ds : List D) (s : Nat) (batch : List D), batch.length ≤ s →
      (saverLoop D c s batch ds).map Prod.fst =
        cumSums ((saverLoop D c s batch ds).map (fun u => u.2.length)) (s - batch.length) := by
  intro ds
  induction ds with
  | nil =>
    intro s batch hbs
    unfold saverLoop
    split
    · rfl
    · simp only [List.map_cons, List.map_nil, cumSums]
      congr 1
      omega
  | cons d ds ih =>
    intro s batch hbs
    unfold saverLoop
    simp only []
    split
    · next hfull =>
      have hrest := ih (s + 1) [] (by simp)
      simp only [List.length_nil, Nat.sub_zero] at hrest
      simp only [List.map_cons, cumSums, hrest]
      have hl : s - batch.length + (batch ++ [d]).length = s + 1 := by
        simp only [List.length_append, List.length_cons, List.length_nil]
        omega
      rw [hl]
    · next hnotfull =>
      have hrest := ih (s + 1) (batch ++ [d]) (by
        simp only [List.length_append, List.length_cons, List.length_nil]
        omega)
      rw [hrest]
      congr 1
      simp only [List.length_append, List.length_cons, List.length_nil]
      omega

/-- Every flushed unit is nonempty. -/
theorem saverLoop_unit_nonempty (D : Type) (c : Nat) :
    ∀ (ds : List D) (s : Nat) (batch : List D) (u : Nat × List D),
      u ∈ saverLoop D c s batch ds → u.2 ≠ [] := by
  intro ds
  induction ds with
  | nil =>
    intro s batch u hu
    unfold saverLoop at hu
    split at hu
    · cases hu
    · next hne =>
      rw [List.mem_singleton] at hu
      rw [hu]
      intro hcon
      apply hne
      rw [List.isEmpty_iff]
      exact hcon
  | cons d ds ih =>
    intro s batch u hu
    unfold saverLoop at hu
    simp only [] at hu
    split at hu
    · rcases List.mem_cons.mp hu with h | h
      · rw [h]
        simp
      · exact ih _ _ u h
    · exact ih _ _ u hu

/-- Cumulative sums of positive increments are strictly increasing. -/
theorem cumSums_chain :
    ∀ (xs : List Nat) (a : Nat), (∀ x ∈ xs, 0 < x) →
      List.Chain' (· < ·) (cumSums xs a) := by
  intro xs
  induction xs with
  | nil => intro a _; simp [cumSums]
  | cons x xs ih =>
    intro a h
    rw [cumSums]
    rcases xs with _ | ⟨y, ys⟩
    · simp [cumSums]
    · rw [cumSums]
      refine List.Chain'.cons ?_ ?_
      · have : 0 < y := h y (by simp)
        omega
      · have := ih (a + x) (fun z hz => h z (List.mem_cons_of_mem _ hz))
        rw [cumSums] at this
        exact this

/-- C2 (amended): unit file numbers are the cumulative document counts at
flush time (k*c for the k-th full batch, n for a final partial one) —
strictly increasing in consumer flush order, but starting at the chunk
size, not at 1. -/
theorem unit_numbers (D : Type) (c : Nat) (docs : List D) :
    (runSaver D c docs).map Prod.fst =
      cumSums ((runSaver D c docs).map (fun u => u.2.length)) 0 ∧
    List.Chain' (· < ·) ((runSaver D c docs).map Prod.fst) := by
  have hfst := saverLoop_fst D c docs 0 [] (by simp)
  simp only [List.length_nil, Nat.sub_zero] at hfst
  constructor
  · exact hfst
  · unfold runSaver
    rw [hfst]
    apply cumSums_chain
    intro x hx
    rcases List.mem_map.mp hx with ⟨u, hu, hux⟩
    have hne := saverLoop_unit_nonempty D c docs 0 [] u hu
    rw [← hux]
    cases hu2 : u.2 with
    | nil => exact absurd hu2 hne
    | cons a l => simp [hu2]

/-- Counterexample to C2 as stated: with chunk size 2 and two documents,
the single (first) flushed unit is `doc-2.json`, not unit 1. -/
theorem unit_numbers_counterexample :
    (runSaver Nat 2 [10, 20]).map (fun u => unitFileName u.1) = ["doc-2.json"] ∧
    ("doc-2.json" : String) ≠ "doc-1.json" := by
  constructor
  · decide
  · decide

/-- The get_problem_id loop resolves to the first og:url meta that has a
content attribute: error when its content does not URL-parse, `Ok` of the
extracted id otherwise, `Ok(None)` when no such meta exists. -/
theorem ogLoop_char : ∀ ms : List HNode,
    ogLoop ms =
      (match (ms.filterMap (fun m => m.attr "content")).head? with
       | none => Except.ok none
       | some c =>
         match parseUrlId c with
         | none => Except.error ()
         | some id => Except.ok (some id)) := by
  intro ms
  induction ms with
  | nil => rfl
  | cons m ms ih =>
    cases h : m.attr "content" with
    | none => simp only [ogLoop, h, List.filterMap_cons, ih]
    | some c => simp only [ogLoop, h, List.filterMap_cons, List.head?_cons]

/-- Counterexample to C3 as stated: on a page the HTML parser accepts
whose og:url metadata content is not a parseable URL, `extract` fails —
the canonical-URL metadata does drive control flow through the `?` on
`get_problem_id`. -/
theorem extract_can_fail_on_parsed_html :
    extractOk badOgDoc = false ∧ extract badOgDoc = Except.error () := ⟨by decide, by decide⟩

/-- C3 (amended): `extract` succeeds exactly when the first contentful
og:url metadata (if any) URL-parses; missing language sections never
cause a failure, but a malformed canonical URL does, even though the
HTML itself parsed. -/
theorem extract_failure_characterization (doc : HForest) :
    extractOk doc = ogUrlOk doc := by
  unfold extractOk extract getProblemId ogUrlOk firstOgContent
  rw [ogLoop_char]
  cases hh : ((selectDoc doc isOgMeta).filterMap (fun m => m.attr "content")).head? with
  | none => rfl
  | some c =>
    cases hp : parseUrlId c with
    | none => simp [hp]
    | some id => simp [hp]

/-- Counterexample to C8 as stated: a record with no language-wrapper
markup but a statement-headed section takes the whole-document fallback
scan and yields a nonempty native segment sequence, not two empty
ones. -/
theorem extract_no_wrapper_counterexample :
    extract fallbackDoc = Except.ok (["abc"], []) ∧
    (["abc"] : List String) ≠ [] := ⟨by decide, by decide⟩

/-- C8 (amended): with no language wrapper for either language, no
statement-headed section for the whole-document fallback to pick up, and
parseable (or absent) canonical-URL metadata, `extract` returns two empty
sequences and no error. -/
theorem extract_empty_when_no_wrappers (doc : HForest)
    (hja : selectDoc doc isSpanJa = [])
    (hen : selectDoc doc isSpanEn = [])
    (hsec : scanSections (selectDoc doc isSection) "問題" = [])
    (hog : ogUrlOk doc = true) :
    extract doc = Except.ok ([], []) := by
  have hok : ∃ v, getProblemId doc = Except.ok v := by
    unfold getProblemId
    rw [ogLoop_char]
    unfold ogUrlOk firstOgContent at hog
    cases hh : ((selectDoc doc isOgMeta).filterMap (fun m => m.attr "content")).head? with
    | none => exact ⟨none, rfl⟩
    | some c =>
      rw [hh] at hog
      cases hp : parseUrlId c with
      | none => simp [hp] at hog
      | some id => exact ⟨some id, by simp [hp]⟩
  obtain ⟨v, hv⟩ := hok
  unfold extract
  rw [hv]
  show Except.ok (jaSegments doc, enSegments doc) = Except.ok ([], [])
  have h1 : jaSegments doc = [] := by
    unfold jaSegments
    rw [hja]
    exact hsec
  have h2 : enSegments doc = [] := by
    unfold enSegments
    rw [hen]
    rfl
  rw [h1, h2]

/-- Witness for C8 (amended) on a page whose only section is headed
`Input`. -/
theorem extract_empty_when_no_wrappers_witness :
    selectDoc noStatementDoc isSpanJa = [] ∧
    selectDoc noStatementDoc isSpanEn = [] ∧
    scanSections (selectDoc noStatementDoc isSection) "問題" = [] ∧
    ogUrlOk noStatementDoc = true ∧
    extract noStatementDoc = Except.ok ([], []) :=
  ⟨rfl, rfl, rfl, rfl, extract_empty_when_no_wrappers noStatementDoc rfl rfl rfl rfl⟩

/-- C6 (amended, backend handler): each active filter contributes exactly
one filter-query clause tagged `{!tag=<its own name>}`; the term filter
renders as an OR-disjunction of SANITIZED values; a range filter renders
the `[from TO to}` inclusive-from/exclusive-to bracket with `*` for an
absent bound (from=800 alone gives `[800 TO *}`), and a range filter with
both bounds absent contributes no clause at all. -/
theorem filter_clause_spec (nfkc : String → String) (fp : FilterParameter) :
    RangeFilterParameter.to_range ⟨some 800, none⟩ = some "[800 TO *\x7d" ∧
    (∀ f t : Option Int, RangeFilterParameter.to_range ⟨f, t⟩ = none ↔ (f = none ∧ t = none)) ∧
    (FilterParameter.to_query nfkc fp).length =
      ((if fp.category.isSome then 1 else 0) +
        (if (fp.difficulty.bind RangeFilterParameter.to_range).isSome then 1 else 0)) ∧
    (∀ cats, fp.category = some cats →
      (FilterParameter.to_query nfkc fp).head? =
        some ("\x7b!tag=category\x7dcategory:(" ++
          String.intercalate " OR " (cats.map (sanitize nfkc)) ++ ")")) ∧
    (∀ d r, fp.difficulty = some d → d.to_range = some r →
      ("\x7b!tag=difficulty\x7ddifficulty:" ++ r) ∈ FilterParameter.to_query nfkc fp) := by
  refine ⟨by decide, ?_, ?_, ?_, ?_⟩
  · intro f t
    cases f <;> cases t <;> simp [RangeFilterParameter.to_range, optBound]
  · rcases fp with ⟨cat, diff⟩
    cases cat <;> cases diff
    · simp [FilterParameter.to_query]
    · rename_i d
      cases hd : d.to_range <;> simp [FilterParameter.to_query, Option.bind, hd]
    · simp [FilterParameter.to_query]
    · rename_i cats d
      cases hd : d.to_range <;> simp [FilterParameter.to_query, Option.bind, hd]
  · intro cats hc
    rcases fp with ⟨cat, diff⟩
    cases hc
    simp [FilterParameter.to_query]
  · intro d r hd hr
    rcases fp with ⟨cat, diff⟩
    cases hd
    cases cat <;> simp [FilterParameter.to_query, hr]

/-- Witness for C6 on a filter group with two allow-listed categories and
a difficulty lower bound of 800. -/
theorem filter_clause_spec_witness :
    ((⟨some ["ABC", "AGC-Like"], some ⟨some 800, none⟩⟩ : FilterParameter).category =
        some ["ABC", "AGC-Like"]) ∧
    ((⟨some ["ABC", "AGC-Like"], some ⟨some 800, none⟩⟩ : FilterParameter).difficulty =
        some ⟨some 800, none⟩) ∧
    RangeFilterParameter.to_range ⟨some 800, none⟩ = some "[800 TO *\x7d" ∧
    ((FilterParameter.to_query id ⟨some ["ABC", "AGC-Like"], some ⟨some 800, none⟩⟩).head? =
      some ("\x7b!tag=category\x7dcategory:(" ++
        String.intercalate " OR " (["ABC", "AGC-Like"].map (sanitize id)) ++ ")")) ∧
    ("\x7b!tag=difficulty\x7ddifficulty:" ++ "[800 TO *\x7d") ∈
      FilterParameter.to_query id ⟨some ["ABC", "AGC-Like"], some ⟨some 800, none⟩⟩ :=
  ⟨rfl, rfl, by decide,
    (filter_clause_spec id ⟨some ["ABC", "AGC-Like"], some ⟨some 800, none⟩⟩).2.2.2.1
      ["ABC", "AGC-Like"] rfl,
    (filter_clause_spec id ⟨some ["ABC", "AGC-Like"], some ⟨some 800, none⟩⟩).2.2.2.2
      ⟨some 800, none⟩ "[800 TO *\x7d" rfl (by decide)⟩

/-- Counterexample to C6 as stated: the older pipeline's
`FilterParameters::to_query` joins the category values RAW — on the
allow-listed value `AGC-Like` its clause differs from the sanitized
rendering (`-` is a reserved token). -/
theorem filter_clause_unsanitized_counterexample :
    FilterParameters.to_query ⟨some ["AGC-Like"], none⟩ =
      ["\x7b!tag=category\x7dcategory:(AGC-Like)"] ∧
    FilterParameter.to_query id ⟨some ["AGC-Like"], none⟩ =
      ["\x7b!tag=category\x7dcategory:(AGC\\-Like)"] ∧
    ("\x7b!tag=category\x7dcategory:(AGC-Like)" : String) ≠
      "\x7b!tag=category\x7dcategory:(AGC\\-Like)" :=
  ⟨by decide, by decide, by decide⟩

/-- Folded `fq` appends one `fq` pair per nonempty clause, in order. -/
theorem fqList_params (ss : List String) : ∀ b : EDisMaxQueryBuilder,
    (b.fqList ss).params =
      b.params ++ (ss.filter (fun s => !(s == ""))).map (fun s => ("fq", s)) := by
  induction ss with
  | nil => intro b; simp [EDisMaxQueryBuilder.fqList]
  | cons s ss ih =>
    intro b
    show (EDisMaxQueryBuilder.fqList (b.fq s) ss).params = _
    rw [ih (b.fq s)]
    unfold EDisMaxQueryBuilder.fq
    by_cases hs : s = ""
    · simp [hs]
    · simp [hs]

/-- `fq`-named pairs never collide with the `sort` parameter name. -/
theorem filter_sort_fqPairs (ls : List String) :
    (ls.map (fun s => (("fq", s) : String × String))).filter
      (fun pr => pr.1 = "sort") = [] := by
  induction ls with
  | nil => rfl
  | cons s ls ih => simp_all

/-- The older pipeline's built query carries exactly one `sort` pair: the
rendered sort key, or the EMPTY string when the request has no sort. -/
theorem sortPairs_to_query_old (nfkc : String → String) (p : SearchQueryParameters) :
    sortPairs (p.to_query nfkc) = [("sort", (p.sort.map renderSort).getD "")] := by
  unfold SearchQueryParameters.to_query sortPairs EDisMaxQueryBuilder.build
  simp only [EDisMaxQueryBuilder.sow, EDisMaxQueryBuilder.start, EDisMaxQueryBuilder.sort,
    EDisMaxQueryBuilder.rows, EDisMaxQueryBuilder.op]
  rw [fqList_params]
  simp only [EDisMaxQueryBuilder.jsonFacet, EDisMaxQueryBuilder.fl, EDisMaxQueryBuilder.q,
    EDisMaxQueryBuilder.qAlt, EDisMaxQueryBuilder.qf, EDisMaxQueryBuilder.new,
    apply_ite EDisMaxQueryBuilder.params]
  simp only [List.filter_append, filter_sort_fqPairs, apply_ite
    (List.filter (fun pr : String × String => decide (pr.1 = "sort")))]
  simp

/-- The backend handler's built query carries exactly one `sort` pair:
the rendered sort key, or the fixed tiebreak `problem_id asc` when the
request has no sort. -/
theorem sortPairs_to_query_backend (nfkc : String → String) (p : ProblemSearchParameter) :
    sortPairs (p.to_query nfkc) = [("sort", (p.sort.map renderSort).getD "problem_id asc")] := by
  unfold ProblemSearchParameter.to_query sortPairs EDisMaxQueryBuilder.build
  simp only [EDisMaxQueryBuilder.sow, EDisMaxQueryBuilder.start, EDisMaxQueryBuilder.sort,
    EDisMaxQueryBuilder.rows, EDisMaxQueryBuilder.op]
  rw [fqList_params]
  simp only [EDisMaxQueryBuilder.jsonFacet, EDisMaxQueryBuilder.fl, EDisMaxQueryBuilder.q,
    EDisMaxQueryBuilder.qAlt, EDisMaxQueryBuilder.qf, EDisMaxQueryBuilder.new,
    apply_ite EDisMaxQueryBuilder.params]
  simp only [List.filter_append, filter_sort_fqPairs, apply_ite
    (List.filter (fun pr : String × String => decide (pr.1 = "sort")))]
  simp

/-- C7 (amended): a leading `-` on the sort key strips the marker and
renders `<field> desc` (`-difficulty` becomes `difficulty desc`) in both
pipelines; an absent sort parameter yields the fixed tiebreak
`problem_id asc` in the backend handler but an empty-valued `("sort","")`
pair — not an unset parameter — in the older pipeline. -/
theorem sort_rendering_spec (nfkc : String → String)
    (pOld : SearchQueryParameters) (pB : ProblemSearchParameter) :
    renderSort "-difficulty" = "difficulty desc" ∧
    (∀ s, pOld.sort = some s →
      sortPairs (pOld.to_query nfkc) = [("sort", renderSort s)]) ∧
    (pOld.sort = none → sortPairs (pOld.to_query nfkc) = [("sort", "")]) ∧
    (∀ s, pB.sort = some s →
      sortPairs (pB.to_query nfkc) = [("sort", renderSort s)]) ∧
    (pB.sort = none → sortPairs (pB.to_query nfkc) = [("sort", "problem_id asc")]) := by
  refine ⟨by decide, ?_, ?_, ?_, ?_⟩
  · intro s hs
    rw [sortPairs_to_query_old, hs]
    rfl
  · intro hs
    rw [sortPairs_to_query_old, hs]
    rfl
  · intro s hs
    rw [sortPairs_to_query_backend, hs]
    rfl
  · intro hs
    rw [sortPairs_to_query_backend, hs]
    rfl

/-- Witness for C7 at sort `-difficulty` (older pipeline) and an absent
sort (backend handler). -/
theorem sort_rendering_spec_witness :
    ((⟨none, none, none, none, some "-difficulty", none⟩ : SearchQueryParameters).sort =
        some "-difficulty") ∧
    sortPairs (SearchQueryParameters.to_query id
        ⟨none, none, none, none, some "-difficulty", none⟩) =
      [("sort", renderSort "-difficulty")] ∧
    ((⟨none, none, none, none, none, none⟩ : ProblemSearchParameter).sort = none) ∧
    sortPairs (ProblemSearchParameter.to_query id ⟨none, none, none, none, none, none⟩) =
      [("sort", "problem_id asc")] :=
  ⟨rfl,
    (sort_rendering_spec id ⟨none, none, none, none, some "-difficulty", none⟩
      ⟨none, none, none, none, none, none⟩).2.1 "-difficulty" rfl,
    rfl,
    (sort_rendering_spec id ⟨none, none, none, none, some "-difficulty", none⟩
      ⟨none, none, none, none, none, none⟩).2.2.2.2 rfl⟩

/-- Counterexample to C7 as stated: with no sort parameter the older
pipeline's built query sets `sort` to the empty string — the pair is
present, and it is not a fixed tiebreak field. -/
theorem sort_absent_counterexample :
    sortPairs (SearchQueryParameters.to_query id ⟨none, none, none, none, none, none⟩) =
      [("sort", "")] ∧
    [(("sort", "") : String × String)] ≠ [] ∧
    [(("sort", "") : String × String)] ≠ [("sort", "problem_id asc")] :=
  ⟨by decide, by decide, by decide⟩
